import Mathlib

/-!
Verification development for the cw-weather-forecast plugin (src/main.py).

The plugin parses a nested JSON-like weather payload into a `WeatherData`
record and schedules a sequence of timed notifications.  We embed the
Python code shallowly: JSON-like dynamic values become the inductive
`JsonValue`, Python exceptions become the `PyErr` error type of an
`Except` monad, and each Python function becomes a Lean definition of the
same name.
-/

set_option maxRecDepth 4000

/-- A Python/JSON dynamic value: `None`, booleans, integers, strings,
lists and string-keyed dicts (association lists, first binding wins). -/
inductive JsonValue where
  | jnull : JsonValue
  | jbool : Bool → JsonValue
  | jint : Int → JsonValue
  | jstr : String → JsonValue
  | jarr : List JsonValue → JsonValue
  | jobj : List (String × JsonValue) → JsonValue

/-- The Python exception kinds that the embedded code can raise. -/
inductive PyErr where
  | attributeError : PyErr
  | keyError : PyErr
  | typeError : PyErr
  | indexError : PyErr
  deriving DecidableEq

open JsonValue

/-- Python truthiness of a value (`bool(v)`). -/
def truthy : JsonValue → Bool
  | jnull => false
  | jbool b => b
  | jint n => n != 0
  | jstr s => s != ""
  | jarr l => !l.isEmpty
  | jobj kvs => !kvs.isEmpty

/-- Association-list lookup with a default: the pure core of `dict.get`. -/
def dictGetD (kvs : List (String × JsonValue)) (k : String) (dflt : JsonValue) :
    JsonValue :=
  match kvs.find? (fun p => p.1 == k) with
  | some p => p.2
  | none => dflt

/-- `v.get(k, dflt)`: succeeds on dicts, raises `AttributeError` on any
value without a `.get` method (strings, lists, numbers, `None`). -/
def dictGet (v : JsonValue) (k : String) (dflt : JsonValue) :
    Except PyErr JsonValue :=
  match v with
  | jobj kvs => .ok (dictGetD kvs k dflt)
  | _ => .error .attributeError

/-- `v[k]` with a string key: `KeyError` on a dict missing the key,
`TypeError` on lists/strings/others (string indices must be integers). -/
def pyIndexStr (v : JsonValue) (k : String) : Except PyErr JsonValue :=
  match v with
  | jobj kvs =>
      match kvs.find? (fun p => p.1 == k) with
      | some p => .ok p.2
      | none => .error .keyError
  | _ => .error .typeError

/-- `v[i]` with a non-negative integer index: list/string indexing with
`IndexError` past the end, `KeyError` on dicts (whose keys here are
strings), `TypeError` on non-subscriptable values. -/
def pyIndexNat (v : JsonValue) (i : Nat) : Except PyErr JsonValue :=
  match v with
  | jarr l =>
      match l.get? i with
      | some x => .ok x
      | none => .error .indexError
  | jstr s =>
      match s.toList.get? i with
      | some c => .ok (jstr (String.mk [c]))
      | none => .error .indexError
  | jobj _ => .error .keyError
  | _ => .error .typeError

/-- `v[:3]`: slicing succeeds on lists and strings (a string slice is a
list of one-character strings here), `TypeError` otherwise. -/
def pySlice3 (v : JsonValue) : Except PyErr (List JsonValue) :=
  match v with
  | jarr l => .ok (l.take 3)
  | jstr s => .ok ((s.toList.take 3).map (fun c => jstr (String.mk [c])))
  | _ => .error .typeError

/-- `len(v)`: defined on lists, strings and dicts, `TypeError` otherwise. -/
def pyLen (v : JsonValue) : Except PyErr Nat :=
  match v with
  | jarr l => .ok l.length
  | jstr s => .ok s.length
  | jobj kvs => .ok kvs.length
  | _ => .error .typeError

/-- The single-quote character, used by the Python `repr` of strings. -/
def sQuote : String := String.mk [Char.ofNat 39]

mutual
/-- Python `repr(v)` (string elements of containers print quoted). -/
def pyRepr : JsonValue → String
  | jnull => "None"
  | jbool b => if b then "True" else "False"
  | jint n => toString n
  | jstr s => sQuote ++ s ++ sQuote
  | jarr l => "[" ++ String.intercalate ", " (pyReprList l) ++ "]"
  | jobj kvs => "\x7b" ++ String.intercalate ", " (pyReprPairs kvs) ++ "\x7d"

/-- `repr` of each element of a list. -/
def pyReprList : List JsonValue → List String
  | [] => []
  | v :: vs => pyRepr v :: pyReprList vs

/-- `repr` of each `key: value` pair of a dict. -/
def pyReprPairs : List (String × JsonValue) → List String
  | [] => []
  | (k, v) :: kvs => (sQuote ++ k ++ sQuote ++ ": " ++ pyRepr v) :: pyReprPairs kvs
end

/-- Python `str(v)`, as used by `str.format` and f-strings. -/
def pyStr : JsonValue → String
  | jstr s => s
  | v => pyRepr v

/-- The weather-code table `WEATHER_STATUS` of src/main.py. -/
def WEATHER_STATUS : List (Int × String) :=
  [(0, "晴"), (1, "多云"), (2, "阴"), (3, "阵雨"), (4, "雷阵雨"),
   (5, "雷阵雨并伴有冰雹"), (6, "雨夹雪"), (7, "小雨"), (8, "中雨"),
   (9, "大雨"), (10, "暴雨"), (11, "大暴雨"), (12, "特大暴雨"), (13, "阵雪"),
   (14, "小雪"), (15, "中雪"), (16, "大雪"), (17, "暴雪"), (18, "雾"),
   (19, "冻雨"), (20, "沙尘暴"), (21, "小雨-中雨"), (22, "中雨-大雨"),
   (23, "大雨-暴雨"), (24, "暴雨-大暴雨"), (25, "大暴雨-特大暴雨"),
   (26, "小雪-中雪"), (27, "中雪-大雪"), (28, "大雪-暴雪"), (29, "浮沉"),
   (30, "扬沙"), (31, "强沙尘暴"), (32, "飑"), (33, "龙卷风"),
   (34, "若高吹雪"), (35, "轻雾"), (53, "霾"), (99, "未知")]

/-- `get_weather_description`: `WEATHER_STATUS.get(code, "未知")`. -/
def get_weather_description (code : Int) : String :=
  (WEATHER_STATUS.lookup code).getD "未知"

/-- `WEATHER_STATUS.get(code, "未知")` applied to a dynamic code value:
ints (and bools, which Python hashes as 0/1) are looked up, other
hashable values miss the all-int key set, unhashable values raise. -/
def weatherDescOfJson : JsonValue → Except PyErr String
  | jint n => .ok (get_weather_description n)
  | jbool b => .ok (get_weather_description (if b then 1 else 0))
  | jnull => .ok "未知"
  | jstr _ => .ok "未知"
  | jarr _ => .error .typeError
  | jobj _ => .error .typeError

/-- The record built by `parse_weather` (`WeatherData` namedtuple). -/
structure WeatherData where
  daily_temp : String
  daily_precip : String
  hourly_weather : String
  alerts : JsonValue

/-- Monadic map over a list, propagating the first raised exception:
the evaluation order of a Python list comprehension. -/
def mapE {α β : Type} (f : α → Except PyErr β) : List α → Except PyErr (List β)
  | [] => .ok []
  | a :: as => do
      let b ← f a
      let bs ← mapE f as
      .ok (b :: bs)

/-- The daily-temperature template `"{}℃~{}℃".format(frm, to)`. -/
def tempTemplate (frm tto : String) : String := frm ++ "℃~" ++ tto ++ "℃"

/-- `get_daily_entries(values, template)`:
`[template.format(v[...from...], v[...to...]) if i < len(values) else "N/A"
  for i, v in enumerate(values[:3])]`. -/
def get_daily_entries (values : JsonValue) (template : String → String → String) :
    Except PyErr (List String) := do
  let sliced ← pySlice3 values
  let n ← pyLen values
  mapE (fun iv =>
    if iv.1 < n then do
      let f ← pyIndexStr iv.2 "from"
      let t ← pyIndexStr iv.2 "to"
      .ok (template (pyStr f) (pyStr t))
    else .ok "N/A") sliced.enum

/-- The `daily_precip` comprehension:
`[f"..." if i < len(chain) else "N/A" for i, v in enumerate(chain[:3])]`
(the f-string never fails). -/
def get_precip_entries (values : JsonValue) : Except PyErr (List String) := do
  let sliced ← pySlice3 values
  let n ← pyLen values
  .ok (sliced.enum.map (fun iv => if iv.1 < n then pyStr iv.2 ++ "%" else "N/A"))

/-- `get_hourly_entries(temp_values, code_values)`: iterates
`enumerate(zip(temp_values[:3], code_values[:3]))` and renders
`f"{get_weather_description(code)} {temp}℃"` under the guard
`i < len(temp_values) and i < len(code_values)`, else `"N/A"`. -/
def get_hourly_entries (temp_values code_values : JsonValue) :
    Except PyErr (List String) := do
  let st ← pySlice3 temp_values
  let sc ← pySlice3 code_values
  let nt ← pyLen temp_values
  let nc ← pyLen code_values
  mapE (fun x =>
    if x.1 < nt && x.1 < nc then do
      let desc ← weatherDescOfJson x.2.2
      .ok (desc ++ " " ++ pyStr x.2.1 ++ "℃")
    else .ok "N/A") (st.zip sc).enum

/-- `" | ".join(entries)`. -/
def joinBar (entries : List String) : String := String.intercalate " | " entries

/-- `parse_weather(data)`: navigates the nested payload with `.get`
defaults, builds the three display strings and keeps the raw alert list.
Pure `.get` chains that the source evaluates more than once are bound
once here (they are side-effect free and deterministic). -/
def parse_weather (data : JsonValue) : Except PyErr WeatherData := do
  let fd ← dictGet data "forecastDaily" (jobj [])
  let fdt ← dictGet fd "temperature" (jobj [])
  let fdtv ← dictGet fdt "value" (jarr [])
  let daily_temp ← get_daily_entries fdtv tempTemplate
  let fdp ← dictGet fd "precipitationProbability" (jobj [])
  let fdpv ← dictGet fdp "value" (jarr [])
  let daily_precip ← get_precip_entries fdpv
  let fh ← dictGet data "forecastHourly" (jobj [])
  let fht ← dictGet fh "temperature" (jobj [])
  let hourly_temp ← dictGet fht "value" (jarr [])
  let fhw ← dictGet fh "weather" (jobj [])
  let hourly_codes ← dictGet fhw "value" (jarr [])
  let hourly_weather ← get_hourly_entries hourly_temp hourly_codes
  let alerts ← dictGet data "alerts" (jarr [])
  .ok ⟨joinBar daily_temp, joinBar daily_precip, joinBar hourly_weather, alerts⟩

/-- Python whitespace stripped by `str.strip()` (the ASCII cases). -/
def isPySpace (c : Char) : Bool :=
  c = ' ' || c = '\t' || c = '\n' || c = '\r' || c = '\x0b' || c = '\x0c'

/-- `s.strip()`: drop leading and trailing whitespace. -/
def pyStrip (s : String) : String :=
  String.mk (((s.toList.dropWhile isPySpace).reverse.dropWhile isPySpace).reverse)

/-- Helper for `s.split(sep, 1)` with a one-character separator:
scan for the first occurrence, accumulating the processed characters. -/
def splitOnceAux (sep : Char) : List Char → List Char → List String
  | [], acc => [String.mk acc.reverse]
  | c :: cs, acc =>
      if c = sep then [String.mk acc.reverse, String.mk cs]
      else splitOnceAux sep cs (c :: acc)

/-- `s.split(sep, 1)`: two pieces when the separator occurs, else the
whole string as a one-element list (Python split never returns `[]`). -/
def pySplitOnce (s : String) (sep : Char) : List String :=
  splitOnceAux sep s.toList []

/-- `Plugin._split_alert_detail(detail_text)`: split on the fullwidth
colon once; the `len(parts) > 0` guard then returns `parts[0].strip()`. -/
def split_alert_detail (detail_text : String) : Option String :=
  let parts := pySplitOnce detail_text '：'
  if parts.length > 0 then some (pyStrip (parts.headD "")) else none

/-- `_split_alert_detail` applied to a dynamic `alert[...detail...]`
value: a non-string has no `.split`, the raised `AttributeError` is
caught by the `except Exception` clause and `None` is returned. -/
def split_alert_detail_py (detail : JsonValue) : Option String :=
  match detail with
  | jstr s => split_alert_detail s
  | _ => none

/-- One scheduled notification: the tuples appended to `notifications`
in `_schedule_notifications` (the dispatch loop reads a missing fifth
tuple slot as icon `None`, so 4-tuples carry `none` here). -/
structure Job where
  delay : Nat
  title : String
  content : String
  duration : Nat
  icon : Option String
  deriving DecidableEq

/-- Python truthiness of the `Optional[str]` returned by
`_split_alert_detail`: `None` and the empty string are falsy. -/
def truthyOptStr : Option String → Bool
  | none => false
  | some s => s != ""

/-- `getattr(self.weather_data, field, "N/A")`: field access on `None`
falls back to the default. -/
def getattr_str (wd : Option WeatherData) (f : WeatherData → String) : String :=
  match wd with
  | some w => f w
  | none => "N/A"

/-- Lines 130-143 of `_schedule_notifications`: if a weather record with
a truthy alert list is present, take `alerts[0]`, read
`alert[...images...][...icon...]` (whose download result is the
`iconPath` oracle, since the network call is outside the embedding) and
`alert[...detail...]`, and append a `天气预警` job when the split title
is truthy.  Any indexing failure propagates as an exception. -/
def alert_branch (weather_data : Option WeatherData) (iconPath : Option String)
    (notifications : List Job) (current_delay : Nat) :
    Except PyErr (List Job × Nat) :=
  match weather_data with
  | none => .ok (notifications, current_delay)
  | some wd =>
      if truthy wd.alerts then do
        let alert ← pyIndexNat wd.alerts 0
        let images ← pyIndexStr alert "images"
        let _icon_url ← pyIndexStr images "icon"
        let icon_path := iconPath
        let alert_detail ← pyIndexStr alert "detail"
        let alert_title_part := split_alert_detail_py alert_detail
        match alert_title_part with
        | some title =>
            if title != "" then
              .ok (notifications ++
                     [⟨current_delay, "天气预警", title, 5000, icon_path⟩],
                   current_delay + 5000)
            else .ok (notifications, current_delay)
        | none => .ok (notifications, current_delay)
      else .ok (notifications, current_delay)

/-- `Plugin._schedule_notifications`: header job at delay 0 for 5000 ms,
optional alert job, then the three data jobs at `current_delay`,
`current_delay + 10000`, `current_delay + 20000`, each for 10000 ms.
Returns the job list together with the delay of the cleanup action,
`max_delay + 1000` where line 150 sets `max_delay = current_delay +
20000` (the start, not the end, of the last job). -/
def schedule_notifications (weather_data : Option WeatherData)
    (iconPath : Option String) : Except PyErr (List Job × Nat) := do
  let weather_notification_duration := 5000
  let notifications : List Job :=
    [⟨0, "天气预报", "", weather_notification_duration, none⟩]
  let current_delay := 0 + weather_notification_duration
  let (notifications, current_delay) ←
    alert_branch weather_data iconPath notifications current_delay
  let notifications := notifications ++
    [⟨current_delay, "近三天温度",
        getattr_str weather_data WeatherData.daily_temp, 10000, none⟩,
     ⟨current_delay + 10000, "近三天降雨概率",
        getattr_str weather_data WeatherData.daily_precip, 10000, none⟩,
     ⟨current_delay + 20000, "接下来三小时天气",
        getattr_str weather_data WeatherData.hourly_weather, 10000, none⟩]
  let max_delay := current_delay + 20000
  .ok (notifications, max_delay + 1000)

/-- The fixed trigger set of `Plugin.update`. -/
def trigger_times : List String :=
  ["09:38:00", "12:00:45", "14:30:30", "17:50:45", "19:40:30"]

/-- The plugin fields touched by `Plugin.update`: the per-day
notified-times set (as a list), the current date (abstracted to `Nat`)
and the last parsed record.  `PluginBase.update` (outside src/) stores
the context mapping and touches none of these fields. -/
structure PluginState where
  notified_times : List String
  current_date : Nat
  weather_data : Option WeatherData

/-- One `update` call's inputs: the wall clock date and time-of-day
string, the `Weather_API` and `Weather_Data` context entries, and the
icon-download oracle consumed if a notification run happens. -/
structure UpdateInput where
  date : Nat
  time : String
  weather_api : JsonValue
  weather_payload : JsonValue
  iconPath : Option String

/-- Outcome of one `update` call: the new field values, whether a
notification run was scheduled, and the exception escaping the call, if
any (the source has no handler around `parse_weather` or
`_schedule_notifications`). -/
structure UpdateResult where
  state : PluginState
  scheduled : Bool
  err : Option PyErr

/-- Python `cw_contexts.get(k) == "literal"`: only an equal string
compares equal; every other type is unequal. -/
def pyEqStr (v : JsonValue) (s : String) : Bool :=
  match v with
  | jstr t => t == s
  | _ => false

/-- `Plugin.update(cw_contexts)`: reset the notified set on a date
change; return early unless `Weather_API == "xiaomi_weather"` and
`Weather_Data` is truthy; parse; and when the time string is a trigger
not yet notified today, run `_schedule_notifications` and record the
time (the time is recorded only after the run returns without raising,
since line 116 follows line 115). -/
def updateStep (s : PluginState) (u : UpdateInput) : UpdateResult :=
  let s1 := if u.date ≠ s.current_date
            then { notified_times := [], current_date := u.date,
                   weather_data := s.weather_data }
            else s
  if pyEqStr u.weather_api "xiaomi_weather" = false then ⟨s1, false, none⟩
  else if truthy u.weather_payload = false then ⟨s1, false, none⟩
  else
    match parse_weather u.weather_payload with
    | .error e => ⟨s1, false, some e⟩
    | .ok wd =>
        let s2 : PluginState :=
          { notified_times := s1.notified_times,
            current_date := s1.current_date, weather_data := some wd }
        if u.time ∈ trigger_times ∧ u.time ∉ s2.notified_times then
          match schedule_notifications s2.weather_data u.iconPath with
          | .error e => ⟨s2, false, some e⟩
          | .ok _ => ⟨{ notified_times := u.time :: s2.notified_times,
                        current_date := s2.current_date,
                        weather_data := s2.weather_data }, true, none⟩
        else ⟨s2, false, none⟩

/-- Run a sequence of `update` calls, collecting for each call its
time-of-day string and whether it scheduled a notification run. -/
def runUpdates (s : PluginState) : List UpdateInput → PluginState × List (String × Bool)
  | [] => (s, [])
  | u :: us =>
      let r := updateStep s u
      let rest := runUpdates r.state us
      (rest.1, (u.time, r.scheduled) :: rest.2)

/-- How many calls of a trace scheduled a run at time-of-day `t`. -/
def countSched (t : String) : List (String × Bool) → Nat
  | [] => 0
  | p :: ps => (if p.1 = t ∧ p.2 = true then 1 else 0) + countSched t ps

/-- One entry of the plugin cache directory, as seen by `os.listdir`:
a name and whether `os.path.isfile` holds for it. -/
structure CacheEntry where
  name : String
  isFile : Bool
  deriving DecidableEq

/-- `Plugin._delete_cached_icons`: `os.remove` every entry that is a
file; entries that are not files (subdirectories) are left in place. -/
def delete_cached_icons (entries : List CacheEntry) : List CacheEntry :=
  entries.filter (fun e => !e.isFile)

/-- Whether an association list carries a binding for `k`. -/
def hasKey (kvs : List (String × JsonValue)) (k : String) : Bool :=
  (kvs.find? (fun p => p.1 == k)).isSome

/-- A daily forecast entry the source can format: a dict with the
keys read by `v[...from...]` and `v[...to...]`. -/
def wf_daily_entry : JsonValue → Bool
  | jobj kvs => hasKey kvs "from" && hasKey kvs "to"
  | _ => false

/-- Whether a value is hashable, i.e. usable as a `dict.get` argument. -/
def hashableCode : JsonValue → Bool
  | jarr _ => false
  | jobj _ => false
  | _ => true

/-- Well-shapedness of the `forecastDaily` section: `temperature` and
`precipitationProbability` are dicts (or absent, defaulting to an empty
dict), their `value` entries are lists, and every daily temperature
entry carries `from` and `to`. -/
def wf_forecastDaily (fd : JsonValue) : Bool :=
  match fd with
  | jobj kvs =>
      (match dictGetD kvs "temperature" (jobj []) with
       | jobj t =>
           (match dictGetD t "value" (jarr []) with
            | jarr l => l.all wf_daily_entry
            | _ => false)
       | _ => false) &&
      (match dictGetD kvs "precipitationProbability" (jobj []) with
       | jobj p =>
           (match dictGetD p "value" (jarr []) with
            | jarr _ => true
            | _ => false)
       | _ => false)
  | _ => false

/-- Well-shapedness of the `forecastHourly` section: `temperature` and
`weather` are dicts, their `value` entries lists, and every hourly
weather code is hashable. -/
def wf_forecastHourly (fh : JsonValue) : Bool :=
  match fh with
  | jobj kvs =>
      (match dictGetD kvs "temperature" (jobj []) with
       | jobj t =>
           (match dictGetD t "value" (jarr []) with
            | jarr _ => true
            | _ => false)
       | _ => false) &&
      (match dictGetD kvs "weather" (jobj []) with
       | jobj w =>
           (match dictGetD w "value" (jarr []) with
            | jarr l => l.all hashableCode
            | _ => false)
       | _ => false)
  | _ => false

/-- A payload `parse_weather` fully consumes without raising: a dict
whose daily and hourly sections are well-shaped. -/
def wfWeatherPayload (data : JsonValue) : Bool :=
  match data with
  | jobj kvs =>
      wf_forecastDaily (dictGetD kvs "forecastDaily" (jobj [])) &&
      wf_forecastHourly (dictGetD kvs "forecastHourly" (jobj []))
  | _ => false

/-- Binding a succeeded `Except` computation just applies the
continuation. -/
@[simp] theorem ok_bind {α β : Type} (a : α) (f : α → Except PyErr β) :
    (Except.ok a >>= f) = f a := rfl

/-- Binding a raised `Except` computation propagates the exception. -/
@[simp] theorem error_bind {α β : Type} (e : PyErr) (f : α → Except PyErr β) :
    ((Except.error e : Except PyErr α) >>= f) = .error e := rfl

/-- The payload of an element of `enumFrom` is an element of the list. -/
theorem snd_mem_of_mem_enumFrom {α : Type} :
    ∀ (l : List α) (n : Nat) (p : Nat × α), p ∈ l.enumFrom n → p.2 ∈ l := by
  intro l
  induction l with
  | nil => intro n p h; simp [List.enumFrom] at h
  | cons a as ih =>
      intro n p h
      simp only [List.enumFrom, List.mem_cons] at h
      rcases h with h | h
      · subst h; exact List.mem_cons_self a as
      · exact List.mem_cons_of_mem a (ih (n + 1) p h)

/-- The payload of an element of `enum` is an element of the list. -/
theorem snd_mem_of_mem_enum {α : Type} (l : List α) (p : Nat × α)
    (h : p ∈ l.enum) : p.2 ∈ l :=
  snd_mem_of_mem_enumFrom l 0 p h

/-- If every element maps to a success, `mapE` succeeds. -/
theorem mapE_ok {α β : Type} (f : α → Except PyErr β) :
    ∀ (l : List α), (∀ a ∈ l, ∃ b, f a = .ok b) →
    ∃ out, mapE f l = .ok out := by
  intro l
  induction l with
  | nil => intro _; exact ⟨[], rfl⟩
  | cons a as ih =>
      intro h
      obtain ⟨b, hb⟩ := h a (List.mem_cons_self a as)
      obtain ⟨bs, hbs⟩ := ih (fun x hx => h x (List.mem_cons_of_mem a hx))
      exact ⟨b :: bs, by simp [mapE, hb, hbs]⟩

/-- A key the association list carries is found by `v[k]`. -/
theorem pyIndexStr_ok_of_hasKey {kvs : List (String × JsonValue)}
    {k : String} (h : hasKey kvs k = true) :
    ∃ x, pyIndexStr (jobj kvs) k = .ok x := by
  simp only [hasKey, Option.isSome_iff_exists] at h
  obtain ⟨p, hp⟩ := h
  exact ⟨p.2, by simp [pyIndexStr, hp]⟩

/-- A hashable weather code is looked up without raising. -/
theorem weatherDesc_ok_of_hashable {v : JsonValue}
    (h : hashableCode v = true) : ∃ s, weatherDescOfJson v = .ok s := by
  cases v <;> simp [hashableCode] at h ⊢ <;> simp [weatherDescOfJson]

/-- `get_daily_entries` succeeds on a list of well-shaped entries. -/
theorem get_daily_entries_ok (l : List JsonValue)
    (h : l.all wf_daily_entry = true) :
    ∃ out, get_daily_entries (jarr l) tempTemplate = .ok out := by
  simp only [get_daily_entries, pySlice3, pyLen, ok_bind]
  apply mapE_ok
  intro p hp
  obtain ⟨i, v⟩ := p
  by_cases hi : i < l.length
  · have hmem : v ∈ l :=
      List.take_subset 3 l (snd_mem_of_mem_enum _ (i, v) hp)
    have hwf : wf_daily_entry v = true := by
      rw [List.all_eq_true] at h; exact h v hmem
    rcases v with _ | b | n | s | l2 | ekvs <;> simp [wf_daily_entry] at hwf
    obtain ⟨hf, ht⟩ := hwf
    obtain ⟨xf, hxf⟩ := pyIndexStr_ok_of_hasKey hf
    obtain ⟨xt, hxt⟩ := pyIndexStr_ok_of_hasKey ht
    refine ⟨tempTemplate (pyStr xf) (pyStr xt), ?_⟩
    simp [hi, hxf, hxt]
  · exact ⟨"N/A", by simp [hi]⟩

/-- `get_precip_entries` succeeds on any list. -/
theorem get_precip_entries_ok (l : List JsonValue) :
    ∃ out, get_precip_entries (jarr l) = .ok out :=
  ⟨_, rfl⟩

/-- `get_hourly_entries` succeeds when every code is hashable. -/
theorem get_hourly_entries_ok (lt lc : List JsonValue)
    (h : lc.all hashableCode = true) :
    ∃ out, get_hourly_entries (jarr lt) (jarr lc) = .ok out := by
  simp only [get_hourly_entries, pySlice3, pyLen, ok_bind]
  apply mapE_ok
  intro p hp
  obtain ⟨i, tc⟩ := p
  obtain ⟨t, c⟩ := tc
  by_cases hi : i < lt.length ∧ i < lc.length
  · have hmemz : (t, c) ∈ (lt.take 3).zip (lc.take 3) :=
      snd_mem_of_mem_enum _ (i, t, c) hp
    have hmemc : c ∈ lc :=
      List.take_subset 3 lc (List.of_mem_zip hmemz).2
    have hhash : hashableCode c = true := by
      rw [List.all_eq_true] at h; exact h c hmemc
    obtain ⟨s, hs⟩ := weatherDesc_ok_of_hashable hhash
    refine ⟨s ++ " " ++ pyStr t ++ "℃", ?_⟩
    simp [hi.1, hi.2, hs]
  · refine ⟨"N/A", ?_⟩
    rw [Classical.not_and_iff_or_not_not] at hi
    rcases hi with hi | hi <;> simp [hi]

/-- An association-list lookup misses every key outside the key set. -/
theorem lookup_eq_none_of_not_mem :
    ∀ (l : List (Int × String)) (c : Int),
      c ∉ l.map Prod.fst → List.lookup c l = none := by
  intro l
  induction l with
  | nil => intro c _; rfl
  | cons kv t ih =>
      intro c h
      obtain ⟨k, v⟩ := kv
      simp only [List.map, List.mem_cons] at h
      push_neg at h
      have hne : (c == k) = false := beq_eq_false_iff_ne.mpr h.1
      simp [List.lookup, hne, ih c h.2]

/-- Claim C9: a weather code outside the `WEATHER_STATUS` table maps to
`未知`, and an hourly entry built from such a code renders as
`未知 {temp}℃`. -/
theorem claimC9_unknown_code (code : Int)
    (h : code ∉ WEATHER_STATUS.map Prod.fst) :
    get_weather_description code = "未知" ∧
    ∀ t : Int, get_hourly_entries (jarr [jint t]) (jarr [jint code]) =
      .ok ["未知 " ++ toString t ++ "℃"] := by
  have hdesc : get_weather_description code = "未知" := by
    simp [get_weather_description, lookup_eq_none_of_not_mem _ _ h]
  refine ⟨hdesc, fun t => ?_⟩
  simp [get_hourly_entries, pySlice3, pyLen, List.enum, List.enumFrom,
    mapE, List.zip, List.zipWith, weatherDescOfJson, hdesc, pyStr, pyRepr]

/-- Witness for C9 at the concrete unlisted code 50 and temperature 21. -/
theorem claimC9_unknown_code_witness :
    get_weather_description 50 = "未知" ∧
    get_hourly_entries (jarr [jint 21]) (jarr [jint 50]) =
      .ok ["未知 21℃"] := by
  have h := claimC9_unknown_code 50 (by decide)
  exact ⟨h.1, h.2 21⟩

/-- A daily forecast payload with a single temperature entry. -/
def dataC1 : JsonValue :=
  jobj [("forecastDaily", jobj [("temperature", jobj [("value",
    jarr [jobj [("from", jint 1), ("to", jint 2)]])])])]

/-- Claim C1 (evaluation at the failing input): on a payload with one
daily temperature entry, `parse_weather` yields a single-entry
`daily_temp` with no `N/A` padding — not the three-entry join the claim
requires.  The `else "N/A"` branches of the comprehensions are
unreachable, since `enumerate(values[:3])` never produces an index that
reaches `len(values)`. -/
theorem claimC1_no_padding :
    (parse_weather dataC1).map WeatherData.daily_temp = .ok "1℃~2℃" ∧
    (parse_weather dataC1).map WeatherData.daily_precip = .ok "" ∧
    (parse_weather dataC1).map WeatherData.hourly_weather = .ok "" ∧
    "1℃~2℃" ≠ joinBar ["1℃~2℃", "N/A", "N/A"] := by
  refine ⟨rfl, rfl, rfl, ?_⟩
  decide

/-- Claim C3 (counterexample): `parse_weather` does raise.  A JSON text
string has no `.get` method (`AttributeError`); a daily temperature
entry without a `from` key raises `KeyError`.  Neither input yields the
null result the claim promises. -/
theorem claimC3_counterexample :
    parse_weather (jstr "[1]") = .error .attributeError ∧
    parse_weather (jobj [("forecastDaily", jobj [("temperature",
      jobj [("value", jarr [jobj []])])])]) = .error .keyError :=
  ⟨rfl, rfl⟩

/-- Inversion of `wf_forecastDaily`: the shapes it guarantees. -/
theorem wf_forecastDaily_inv (fd : JsonValue) (h : wf_forecastDaily fd = true) :
    ∃ fkvs tkvs dl pkvs pl,
      fd = jobj fkvs ∧
      dictGetD fkvs "temperature" (jobj []) = jobj tkvs ∧
      dictGetD tkvs "value" (jarr []) = jarr dl ∧
      dl.all wf_daily_entry = true ∧
      dictGetD fkvs "precipitationProbability" (jobj []) = jobj pkvs ∧
      dictGetD pkvs "value" (jarr []) = jarr pl := by
  cases fd
  case jobj fkvs =>
    simp only [wf_forecastDaily, Bool.and_eq_true] at h
    obtain ⟨h1, h2⟩ := h
    split at h1
    case _ tkvs heq1 =>
      split at h1
      case _ dl heq2 =>
        split at h2
        case _ pkvs heq3 =>
          split at h2
          case _ pl heq4 =>
            exact ⟨fkvs, tkvs, dl, pkvs, pl, rfl, heq1, heq2, h1, heq3, heq4⟩
          all_goals simp_all
        all_goals simp_all
      all_goals simp_all
    all_goals simp_all
  all_goals simp [wf_forecastDaily] at h

/-- Inversion of `wf_forecastHourly`: the shapes it guarantees. -/
theorem wf_forecastHourly_inv (fh : JsonValue)
    (h : wf_forecastHourly fh = true) :
    ∃ hkvs htkvs tl hwkvs cl,
      fh = jobj hkvs ∧
      dictGetD hkvs "temperature" (jobj []) = jobj htkvs ∧
      dictGetD htkvs "value" (jarr []) = jarr tl ∧
      dictGetD hkvs "weather" (jobj []) = jobj hwkvs ∧
      dictGetD hwkvs "value" (jarr []) = jarr cl ∧
      cl.all hashableCode = true := by
  cases fh
  case jobj hkvs =>
    simp only [wf_forecastHourly, Bool.and_eq_true] at h
    obtain ⟨h1, h2⟩ := h
    split at h1
    case _ htkvs heq1 =>
      split at h1
      case _ tl heq2 =>
        split at h2
        case _ hwkvs heq3 =>
          split at h2
          case _ cl heq4 =>
            exact ⟨hkvs, htkvs, tl, hwkvs, cl, rfl, heq1, heq2, heq3, heq4, h2⟩
          all_goals simp_all
        all_goals simp_all
      all_goals simp_all
    all_goals simp_all
  all_goals simp [wf_forecastHourly] at h

/-- Claim C3 (amended): `parse_weather` raises no exception and returns
a `WeatherData` record for every payload that is a dict whose forecast
sections are well-shaped; the null result never occurs.  (Unparsable
input raises instead of yielding null, per the counterexample.) -/
theorem claimC3_total_on_wf (data : JsonValue)
    (h : wfWeatherPayload data = true) :
    ∃ wd, parse_weather data = .ok wd := by
  cases data
  case jobj kvs =>
    simp only [wfWeatherPayload, Bool.and_eq_true] at h
    obtain ⟨hd, hh⟩ := h
    obtain ⟨fkvs, tkvs, dl, pkvs, pl, hfd, hdt', hdtv, hall, hdp', hdpv⟩ :=
      wf_forecastDaily_inv _ hd
    obtain ⟨hkvs, htkvs, tl, hwkvs, cl, hfh, hht', hhtv, hhw', hhwv, hhash⟩ :=
      wf_forecastHourly_inv _ hh
    obtain ⟨dt, hdtE⟩ := get_daily_entries_ok dl hall
    obtain ⟨dp, hdpE⟩ := get_precip_entries_ok pl
    obtain ⟨hw, hhwE⟩ := get_hourly_entries_ok tl cl hhash
    refine ⟨⟨joinBar dt, joinBar dp, joinBar hw,
      dictGetD kvs "alerts" (jarr [])⟩, ?_⟩
    simp only [parse_weather, dictGet, ok_bind, hfd, hdt', hdtv, hdp',
      hdpv, hfh, hht', hhtv, hhw', hhwv, hdtE, hdpE, hhwE]
  all_goals simp [wfWeatherPayload] at h

/-- Witness for C3 (amended) at the empty dict payload. -/
theorem claimC3_total_on_wf_witness :
    wfWeatherPayload (jobj []) = true ∧
    ∃ wd, parse_weather (jobj []) = .ok wd :=
  ⟨by decide, claimC3_total_on_wf (jobj []) (by decide)⟩

/-- When `alert_branch` returns, it either left the job list untouched
or appended exactly one `天气预警` job of duration 5000 at the current
delay, advancing the delay by 5000. -/
theorem alert_branch_cases (wd : Option WeatherData) (ip : Option String)
    (notif : List Job) (cur : Nat) (out : List Job × Nat)
    (h : alert_branch wd ip notif cur = .ok out) :
    out = (notif, cur) ∨
    ∃ title, out = (notif ++ [⟨cur, "天气预警", title, 5000, ip⟩], cur + 5000) := by
  cases wd
  case none =>
    simp only [alert_branch] at h
    exact Or.inl (Except.ok.inj h).symm
  case some w =>
    simp only [alert_branch] at h
    split at h
    · cases ha : pyIndexNat w.alerts 0 <;> rw [ha] at h <;> simp only [ok_bind, error_bind] at h
      case error e => exact absurd h (by simp)
      case ok alert =>
        cases hb : pyIndexStr alert "images" <;> rw [hb] at h <;>
          simp only [ok_bind, error_bind] at h
        case error e => exact absurd h (by simp)
        case ok images =>
          cases hc : pyIndexStr images "icon" <;> rw [hc] at h <;>
            simp only [ok_bind, error_bind] at h
          case error e => exact absurd h (by simp)
          case ok icon_url =>
            cases hd : pyIndexStr alert "detail" <;> rw [hd] at h <;>
              simp only [ok_bind, error_bind] at h
            case error e => exact absurd h (by simp)
            case ok detail =>
              cases he : split_alert_detail_py detail <;> rw [he] at h
              case none => exact Or.inl (Except.ok.inj h).symm
              case some title =>
                by_cases ht : title = ""
                · simp only [ht] at h
                  simp at h
                  exact Or.inl h.symm
                · have ht' : (title != "") = true := by
                    simp [bne_iff_ne, ht]
                  simp only [ht'] at h
                  simp at h
                  exact Or.inr ⟨title, h.symm⟩
    · exact Or.inl (Except.ok.inj h).symm

/-- A weather record with no alerts and short display strings. -/
def wdPlain : WeatherData := ⟨"T", "P", "H", jarr []⟩

/-- An alert whose detail text contains no colon (neither `：` nor `:`). -/
def alertNoColon : JsonValue :=
  jobj [("detail", jstr "蓝色预警提示"),
        ("images", jobj [("icon", jstr "http://example/icon.webp")])]

/-- A weather record carrying only the colon-free alert. -/
def wdNoColon : WeatherData := ⟨"T", "P", "H", jarr [alertNoColon]⟩

/-- Claim C2 (evaluation at the failing input): with an alert whose
detail has no colon, `_split_alert_detail` returns the whole stripped
text (the `len(parts) > 0` guard is always true, so its `None` branch
is unreachable), which is truthy — and the scheduler therefore does
append a `天气预警` job. -/
theorem claimC2_no_colon_still_alerts :
    split_alert_detail "蓝色预警提示" = some "蓝色预警提示" ∧
    schedule_notifications (some wdNoColon) none =
      .ok ([⟨0, "天气预报", "", 5000, none⟩,
            ⟨5000, "天气预警", "蓝色预警提示", 5000, none⟩,
            ⟨10000, "近三天温度", "T", 10000, none⟩,
            ⟨20000, "近三天降雨概率", "P", 10000, none⟩,
            ⟨30000, "接下来三小时天气", "H", 10000, none⟩], 31000) ∧
    ∃ jobs cd, schedule_notifications (some wdNoColon) none = .ok (jobs, cd) ∧
      ∃ j ∈ jobs, j.title = "天气预警" := by
  refine ⟨rfl, rfl, _, _, rfl, ⟨5000, "天气预警", "蓝色预警提示", 5000, none⟩, ?_, rfl⟩
  decide

/-- Claim C4 (evaluation at the failing input): with a plain record the
last notification starts at 25000 ms and displays for 10000 ms, but the
cleanup action is scheduled at 26000 ms — before the last display
window ends, contradicting the claim (the source sets `max_delay` to
the last job's start, not its end). -/
theorem claimC4_cleanup_before_last_display :
    schedule_notifications (some wdPlain) none =
      .ok ([⟨0, "天气预报", "", 5000, none⟩,
            ⟨5000, "近三天温度", "T", 10000, none⟩,
            ⟨15000, "近三天降雨概率", "P", 10000, none⟩,
            ⟨25000, "接下来三小时天气", "H", 10000, none⟩], 26000) ∧
    26000 < 25000 + 10000 :=
  ⟨rfl, by decide⟩

/-- Claim C5: whenever `_schedule_notifications` builds a job list, the
first job is at delay 0, delays are strictly increasing, and each job
ends (delay + duration) no later than the next job starts. -/
theorem claimC5_delays (wd : Option WeatherData) (ip : Option String)
    (jobs : List Job) (cd : Nat)
    (h : schedule_notifications wd ip = .ok (jobs, cd)) :
    (∃ j rest, jobs = j :: rest ∧ j.delay = 0) ∧
    List.Chain' (fun a b => a.delay < b.delay) jobs ∧
    List.Chain' (fun a b => a.delay + a.duration ≤ b.delay) jobs := by
  simp only [schedule_notifications] at h
  cases hab : alert_branch wd ip [⟨0, "天气预报", "", 5000, none⟩] (0 + 5000)
  case error e => rw [hab] at h; simp at h
  case ok out =>
    rw [hab] at h
    simp only [ok_bind] at h
    rcases alert_branch_cases _ _ _ _ _ hab with hcase | ⟨title, hcase⟩ <;>
      subst hcase <;>
      simp only [List.cons_append, List.nil_append] at h <;>
      obtain ⟨rfl, rfl⟩ := Prod.mk.inj (Except.ok.inj h) <;>
      refine ⟨⟨_, _, rfl, rfl⟩, ?_, ?_⟩ <;>
      simp [List.chain'_cons, List.Chain']

/-- The job list the scheduler builds for `wdPlain`. -/
def jobsPlain : List Job :=
  [⟨0, "天气预报", "", 5000, none⟩,
   ⟨5000, "近三天温度", "T", 10000, none⟩,
   ⟨15000, "近三天降雨概率", "P", 10000, none⟩,
   ⟨25000, "接下来三小时天气", "H", 10000, none⟩]

/-- Witness for C5 at the concrete record `wdPlain`. -/
theorem claimC5_delays_witness :
    (∃ j rest, jobsPlain = j :: rest ∧ j.delay = 0) ∧
    List.Chain' (fun a b => a.delay < b.delay) jobsPlain ∧
    List.Chain' (fun a b => a.delay + a.duration ≤ b.delay) jobsPlain :=
  claimC5_delays (some wdPlain) none jobsPlain 26000 rfl

/-- Claim C7: with an empty alert list the scheduler produces exactly
the header job and the three data jobs, and no job titled `天气预警`. -/
theorem claimC7_no_alert_no_warning (wd : WeatherData) (ip : Option String)
    (h : wd.alerts = jarr []) :
    schedule_notifications (some wd) ip =
      .ok ([⟨0, "天气预报", "", 5000, none⟩,
            ⟨5000, "近三天温度", wd.daily_temp, 10000, none⟩,
            ⟨15000, "近三天降雨概率", wd.daily_precip, 10000, none⟩,
            ⟨25000, "接下来三小时天气", wd.hourly_weather, 10000, none⟩],
          26000) ∧
    ∀ jobs cd, schedule_notifications (some wd) ip = .ok (jobs, cd) →
      ∀ j ∈ jobs, j.title ≠ "天气预警" := by
  have h1 : schedule_notifications (some wd) ip =
      .ok ([⟨0, "天气预报", "", 5000, none⟩,
            ⟨5000, "近三天温度", wd.daily_temp, 10000, none⟩,
            ⟨15000, "近三天降雨概率", wd.daily_precip, 10000, none⟩,
            ⟨25000, "接下来三小时天气", wd.hourly_weather, 10000, none⟩],
          26000) := by
    simp [schedule_notifications, alert_branch, h, truthy, getattr_str]
  refine ⟨h1, ?_⟩
  intro jobs cd h2 j hj
  rw [h1] at h2
  obtain ⟨rfl, rfl⟩ := Prod.mk.inj (Except.ok.inj h2)
  simp only [List.mem_cons, List.not_mem_nil, or_false] at hj
  rcases hj with rfl | rfl | rfl | rfl <;> simp

/-- Witness for C7 at the concrete record `wdPlain`. -/
theorem claimC7_no_alert_no_warning_witness :
    wdPlain.alerts = jarr [] ∧
    schedule_notifications (some wdPlain) none =
      .ok ([⟨0, "天气预报", "", 5000, none⟩,
            ⟨5000, "近三天温度", "T", 10000, none⟩,
            ⟨15000, "近三天降雨概率", "P", 10000, none⟩,
            ⟨25000, "接下来三小时天气", "H", 10000, none⟩], 26000) :=
  ⟨rfl, (claimC7_no_alert_no_warning wdPlain none rfl).1⟩

/-- Claim C8 (counterexample): `_delete_cached_icons` removes only
files (`os.path.isfile` guard), so a subdirectory entry survives and
the cache directory is not empty afterwards. -/
theorem claimC8_counterexample :
    delete_cached_icons [⟨"sub", false⟩] ≠ [] ∧
    (⟨"sub", false⟩ : CacheEntry) ∈ delete_cached_icons [⟨"sub", false⟩] := by
  decide

/-- Claim C8 (amended): after `_delete_cached_icons` runs, no file
entry remains — every file previously present has been removed — and
when the cache held only files (the only entries the plugin ever
creates there) the directory is empty. -/
theorem claimC8_files_removed (entries : List CacheEntry) :
    (∀ e ∈ delete_cached_icons entries, e.isFile = false) ∧
    ((∀ e ∈ entries, e.isFile = true) → delete_cached_icons entries = []) := by
  constructor
  · intro e he
    simp only [delete_cached_icons, List.mem_filter] at he
    simpa using he.2
  · intro h
    simp only [delete_cached_icons]
    rw [List.filter_eq_nil_iff]
    intro a ha
    simp [h a ha]

/-- Witness for C8 (amended) on a one-file cache directory. -/
theorem claimC8_files_removed_witness :
    delete_cached_icons [⟨"alert.webp", true⟩] = [] :=
  (claimC8_files_removed [⟨"alert.webp", true⟩]).2 (by decide)

/-- Claim C10: an update on an unchanged date with the wrong
`Weather_API` sentinel or a missing/empty `Weather_Data` leaves every
plugin field unchanged, schedules nothing and raises nothing. -/
theorem claimC10_frame (s : PluginState) (u : UpdateInput)
    (hdate : u.date = s.current_date)
    (hcond : pyEqStr u.weather_api "xiaomi_weather" = false ∨
             truthy u.weather_payload = false) :
    updateStep s u = ⟨s, false, none⟩ := by
  rcases hcond with hc | hc
  · simp [updateStep, hdate, hc]
  · by_cases hapi : pyEqStr u.weather_api "xiaomi_weather" = false
    · simp [updateStep, hdate, hapi]
    · simp only [Bool.not_eq_false] at hapi
      simp [updateStep, hdate, hapi, hc]

/-- A state and an update input with a non-matching API sentinel. -/
def stW : PluginState := ⟨["12:00:45"], 7, none⟩

/-- An update input carrying a non-xiaomi API marker. -/
def uWrongApi : UpdateInput := ⟨7, "09:38:00", jstr "qweather", jobj [("a", jint 1)], none⟩

/-- Witness for C10 at a concrete state and wrong-API input. -/
theorem claimC10_frame_witness :
    uWrongApi.date = stW.current_date ∧
    pyEqStr uWrongApi.weather_api "xiaomi_weather" = false ∧
    updateStep stW uWrongApi = ⟨stW, false, none⟩ :=
  ⟨rfl, rfl, claimC10_frame stW uWrongApi rfl (Or.inl rfl)⟩

/-- A same-date update call leaves `current_date` unchanged. -/
theorem updateStep_same_date_current (s : PluginState) (u : UpdateInput)
    (hdate : u.date = s.current_date) :
    (updateStep s u).state.current_date = s.current_date := by
  simp only [updateStep]
  repeat' split
  all_goals first | omega | rfl

/-- A same-date update call never removes a recorded time. -/
theorem updateStep_notified_mono (s : PluginState) (u : UpdateInput)
    (hdate : u.date = s.current_date) (x : String)
    (hx : x ∈ s.notified_times) :
    x ∈ (updateStep s u).state.notified_times := by
  simp only [updateStep]
  repeat' split
  all_goals first
    | omega
    | exact hx
    | exact List.mem_cons_of_mem _ hx

/-- A same-date update that schedules a run does so at a time not yet
recorded, and records that time. -/
theorem updateStep_sched_inv (s : PluginState) (u : UpdateInput)
    (hdate : u.date = s.current_date)
    (hs : (updateStep s u).scheduled = true) :
    u.time ∉ s.notified_times ∧
    (updateStep s u).state.notified_times = u.time :: s.notified_times := by
  revert hs
  simp only [updateStep]
  repeat' split
  all_goals intro hs
  all_goals first | omega | simp_all

/-- Invariant of a same-day run: the runs scheduled at time `t`,
plus one if `t` is already recorded, never exceed one. -/
theorem runUpdates_count_bound (t : String) :
    ∀ (us : List UpdateInput) (s : PluginState),
      (∀ u ∈ us, u.date = s.current_date) →
      countSched t (runUpdates s us).2 +
        (if t ∈ s.notified_times then 1 else 0) ≤ 1 := by
  intro us
  induction us with
  | nil =>
      intro s _
      simp only [runUpdates, countSched, Nat.zero_add]
      split <;> omega
  | cons u rest ih =>
      intro s h
      have hdate : u.date = s.current_date := h u (List.mem_cons_self u rest)
      have hrest : ∀ v ∈ rest, v.date = (updateStep s u).state.current_date := by
        intro v hv
        rw [updateStep_same_date_current s u hdate]
        exact h v (List.mem_cons_of_mem u hv)
      have ihr := ih (updateStep s u).state hrest
      simp only [runUpdates, countSched]
      by_cases hht : u.time = t ∧ (updateStep s u).scheduled = true
      · obtain ⟨hnot, heq⟩ := updateStep_sched_inv s u hdate hht.2
        have h0 : (if t ∈ s.notified_times then 1 else 0) = 0 := by
          rw [if_neg]; rw [← hht.1]; exact hnot
        have h1 : t ∈ (updateStep s u).state.notified_times := by
          rw [heq, ← hht.1]; exact List.mem_cons_self u.time s.notified_times
        rw [if_pos h1] at ihr
        rw [if_pos hht, h0]
        omega
      · have hmono : (if t ∈ s.notified_times then 1 else 0) ≤
            (if t ∈ (updateStep s u).state.notified_times then 1 else 0) := by
          by_cases hm : t ∈ s.notified_times
          · rw [if_pos hm, if_pos (updateStep_notified_mono s u hdate t hm)]
          · rw [if_neg hm]; exact Nat.zero_le _
        rw [if_neg hht]
        omega

/-- Claim C6: across any sequence of same-day update calls, each
time-of-day schedules at most one notification run; and an update on a
new calendar day adopts the new date and starts from an empty
notified-times set (holding at most the time of that very update). -/
theorem claimC6_daily_dedup_and_reset (t : String) :
    (∀ (s : PluginState) (us : List UpdateInput),
        (∀ u ∈ us, u.date = s.current_date) →
        countSched t (runUpdates s us).2 ≤ 1) ∧
    (∀ (s : PluginState) (u : UpdateInput), u.date ≠ s.current_date →
        (updateStep s u).state.current_date = u.date ∧
        ((updateStep s u).state.notified_times = [] ∨
         (updateStep s u).state.notified_times = [u.time])) := by
  constructor
  · intro s us h
    exact le_trans (Nat.le_add_right _ _) (runUpdates_count_bound t us s h)
  · intro s u hd
    simp only [updateStep]
    repeat' split
    all_goals first
      | omega
      | exact ⟨rfl, Or.inl rfl⟩
      | exact ⟨rfl, Or.inr rfl⟩

/-- An initial state on day 5 with nothing notified. -/
def stC6 : PluginState := ⟨[], 5, none⟩

/-- A valid same-day trigger-time update input. -/
def uT : UpdateInput :=
  ⟨5, "09:38:00", jstr "xiaomi_weather", jobj [("alerts", jarr [])], none⟩

/-- An update input on a different calendar day. -/
def uNewDay : UpdateInput := ⟨6, "12:00:45", jstr "nope", jnull, none⟩

/-- Witness for C6: two identical same-day trigger calls schedule at
most once, and a new-day call resets the notified set. -/
theorem claimC6_daily_dedup_and_reset_witness :
    countSched "09:38:00" (runUpdates stC6 [uT, uT]).2 ≤ 1 ∧
    ((updateStep stC6 uNewDay).state.current_date = uNewDay.date ∧
     ((updateStep stC6 uNewDay).state.notified_times = [] ∨
      (updateStep stC6 uNewDay).state.notified_times = [uNewDay.time])) :=
  ⟨(claimC6_daily_dedup_and_reset "09:38:00").1 stC6 [uT, uT] (by decide),
   (claimC6_daily_dedup_and_reset "09:38:00").2 stC6 uNewDay (by decide)⟩
